import Mathlib

/-!
Formal model of the reklampaybot ad-watch reward service.

The repository concatenates several generations of the same Node/Express
+ Postgres service.  Each namespace below is a shallow embedding of one
variant:

* `RB.P2` — the schema-flex webhook variant (src/unnamed/part_002): the
  `/api/ad/complete` handler with a row-locked transaction, `creditUser`,
  and the fixed 0.25 TL / 0.25 diamond watch reward.
* `RB.P0` — the column-detection variant (src/unnamed/part_000):
  `completeAdSession` with the 0.4 s tolerance check and the route
  handler that wraps it.
* `RB.V1` — the first document of src/index.js: session rows snapshot
  the reward amounts at creation time.
* `RB.P1` — src/unnamed/part_001: the ads inventory, the daily quota in
  `daily_views`, the referral percentage, withdrawals with
  approve/reject.
* `RB.V2` — the second document of src/index.js: `daily_stats`,
  `/api/convert`, withdraw requests settled by `/admin_withdraw_paid`.

Money amounts (Postgres `numeric` columns, JS numbers holding 2-decimal
values) are modelled as exact rationals; timestamps as rational seconds.
SQL `UPDATE ... WHERE` is a conditional map over the table's row list,
`SELECT ... WHERE ... LIMIT 1` is `List.find?`, and `INSERT` appends.
-/

namespace RB

/-- JS `Number(x.toFixed(2))`: rounding to 2 decimal places, on exact
rationals. -/
def round2 (x : ℚ) : ℚ := (round (x * 100) : ℚ) / 100

namespace P2

/-- One row of `public.users` (part_002 schema; columns resolved to the
canonical names `tg_id`, `balance_tl`, `diamonds`). -/
structure User where
  tg_id : Nat
  balance_tl : ℚ
  diamonds : ℚ
  deriving Repr, DecidableEq

/-- One row of `public.ad_sessions` (part_002: sessions carry no reward
columns; `completed_at`, set only together with `completed`, is
omitted). -/
structure Session where
  id : Nat
  tg_id : Nat
  seconds : Nat
  started_at : ℚ
  completed : Bool
  deriving Repr, DecidableEq

/-- The database state used by the part_002 completion flow. -/
structure Db where
  users : List User
  sessions : List Session
  deriving Repr, DecidableEq

/-- Fixed watch reward (part_002, `WATCH_REWARD_TL`). -/
def WATCH_REWARD_TL : ℚ := 1/4

/-- Fixed watch reward (part_002, `WATCH_REWARD_DIAMONDS`). -/
def WATCH_REWARD_DIAMONDS : ℚ := 1/4

/-- `creditUser` (part_002): one additive UPDATE `... RETURNING` the new
balances, issued through the shared pool (auto-commit).  The returned
row is present only when the user row exists. -/
def creditUser (db : Db) (tg : Nat) (aTl aD : ℚ) : Db × Option (ℚ × ℚ) :=
  match db.users.find? (fun u => u.tg_id == tg) with
  | none => (db, none)
  | some u =>
      ({ db with users := db.users.map (fun x =>
            if x.tg_id == tg then
              { x with balance_tl := x.balance_tl + aTl, diamonds := x.diamonds + aD }
            else x) },
       some (u.balance_tl + aTl, u.diamonds + aD))

/-- Responses of `POST /api/ad/complete` (part_002). -/
inductive CompleteResp where
  | sessionNotFound
  | notYourSession
  | alreadyOk
  | tooEarly (elapsed : ℚ) (required : Nat)
  | success (balance_tl diamonds : ℚ)
  | serverError
  deriving Repr, DecidableEq

/-- `POST /api/ad/complete` (part_002).  The handler opens a transaction
on a dedicated client and locks the session row; the `completed=true`
flip is a client-side write and only takes effect at COMMIT, while
`creditUser` issues its UPDATE through the shared pool, so the credit
takes effect immediately and unconditionally.  `commitOk` injects the
outcome of the final COMMIT: on failure the catch block rolls the
transaction back (discarding the flip) and answers 500.  In the source
the flip statement runs before `creditUser`; being buffered until
COMMIT, it is applied here at commit time, which is observationally the
same. -/
def adComplete (db : Db) (tg sid : Nat) (now : ℚ) (commitOk : Bool) :
    Db × CompleteResp :=
  match db.sessions.find? (fun s => s.id == sid) with
  | none => (db, .sessionNotFound)
  | some s =>
      if s.tg_id ≠ tg then (db, .notYourSession)
      else if s.completed then (db, .alreadyOk)
      else
        let elapsed : ℚ := now - s.started_at
        if elapsed + 1/2 < (s.seconds : ℚ) then (db, .tooEarly elapsed s.seconds)
        else
          match creditUser db tg WATCH_REWARD_TL WATCH_REWARD_DIAMONDS with
          | (db1, some bd) =>
              if commitOk then
                ({ db1 with sessions := db1.sessions.map (fun x =>
                      if x.id == sid then { x with completed := true } else x) },
                 .success bd.1 bd.2)
              else (db1, .serverError)
          | (db1, none) =>
              -- user row absent: COMMIT still applies the flip, then
              -- reading `balances.balance_tl` throws and yields a 500
              if commitOk then
                ({ db1 with sessions := db1.sessions.map (fun x =>
                      if x.id == sid then { x with completed := true } else x) },
                 .serverError)
              else (db1, .serverError)

/-- TL balance of a user, 0 when the row is absent. -/
def balTl (db : Db) (tg : Nat) : ℚ :=
  ((db.users.find? (fun u => u.tg_id == tg)).map (fun u => u.balance_tl)).getD 0

/-- Diamond balance of a user, 0 when the row is absent. -/
def balDia (db : Db) (tg : Nat) : ℚ :=
  ((db.users.find? (fun u => u.tg_id == tg)).map (fun u => u.diamonds)).getD 0

/-- Completion flag of a session row. -/
def sessionCompleted (db : Db) (sid : Nat) : Option Bool :=
  (db.sessions.find? (fun s => s.id == sid)).map (fun s => s.completed)

/-- Concrete database for the C1 witness. -/
def dbC1 : Db :=
  { users := [⟨1, 2, 3⟩], sessions := [⟨7, 1, 15, 0, false⟩] }

/-- Concrete database for the C3 failing scenario. -/
def dbC3 : Db :=
  { users := [⟨1, 0, 0⟩], sessions := [⟨1, 1, 15, 0, false⟩] }

end P2

namespace P0

/-- One row of `users` (part_000; the column map resolved to
`balance_tl`, `diamonds` and a daily counter column). -/
structure User where
  tg_id : Nat
  balance_tl : ℚ
  diamonds : ℚ
  daily_ads_watched : Nat
  deriving Repr, DecidableEq

/-- One row of `ad_sessions` (part_000 schema: sessions snapshot the
required seconds and the reward amounts at creation). -/
structure Session where
  id : Nat
  tg_id : Nat
  seconds : ℚ
  started_at : ℚ
  completed : Bool
  reward_tl : ℚ
  reward_diamonds : ℚ
  deriving Repr, DecidableEq

/-- The database state used by the part_000 completion flow. -/
structure Db where
  users : List User
  sessions : List Session
  deriving Repr, DecidableEq

/-- Results of `completeAdSession` (part_000).  The `bad_session` branch
(NULL / NaN columns) has no counterpart in this total model, and the
`update_failed` branch cannot fire because the row just selected always
matches the conditional update. -/
inductive CAResult where
  | not_found
  | already_completed
  | too_early (remaining : ℤ)
  | okReward (tl diamonds : ℚ)
  deriving Repr, DecidableEq

/-- `completeAdSession` (part_000): select the row by session id and
owner, refuse when already completed or when `elapsed + 0.4 < seconds`
(reporting `Math.ceil(seconds - elapsed)` remaining seconds), otherwise
flip `completed=true` with a `WHERE ... completed=false` guard and
return the session's reward snapshot. -/
def completeAdSession (db : Db) (sid tg : Nat) (now : ℚ) : Db × CAResult :=
  match db.sessions.find? (fun s => s.id == sid && s.tg_id == tg) with
  | none => (db, .not_found)
  | some s =>
      if s.completed then (db, .already_completed)
      else
        let elapsed := now - s.started_at
        if elapsed + 2/5 < s.seconds then
          (db, .too_early ⌈s.seconds - elapsed⌉)
        else
          ({ db with sessions := db.sessions.map (fun x =>
                if x.id == sid && x.tg_id == tg && !x.completed then
                  { x with completed := true }
                else x) },
           .okReward s.reward_tl s.reward_diamonds)

/-- `creditUser` (part_000, canonical column map): one additive UPDATE;
components with a zero delta are skipped in the source, which is the
same as adding 0. -/
def creditUser (db : Db) (tg : Nat) (tl dia : ℚ) : Db :=
  { db with users := db.users.map (fun u =>
      if u.tg_id == tg then
        { u with balance_tl := u.balance_tl + tl, diamonds := u.diamonds + dia }
      else u) }

/-- `bumpDailyCounter` (part_000): increment the resolved daily counter
column. -/
def bumpDailyCounter (db : Db) (tg : Nat) : Db :=
  { db with users := db.users.map (fun u =>
      if u.tg_id == tg then { u with daily_ads_watched := u.daily_ads_watched + 1 } else u) }

/-- JSON answer of the part_000 `/api/ad/complete` handler. -/
structure CompleteResp where
  ok : Bool
  tl_reward : ℚ
  diamond_reward : ℚ
  deriving Repr, DecidableEq

/-- `Number(x) || 0.25` applied to `rewards.tl` / `rewards.diamonds`:
`undefined` (field absent on the error results, `Number` gives NaN) and
`0` both coerce to the 0.25 fallback. -/
def numOrQuarter (x : Option ℚ) : ℚ :=
  match x with
  | some v => if v = 0 then 1/4 else v
  | none => 1/4

/-- `POST /api/ad/complete` (part_000).  `completeAdSession` returns an
object in every case, so the handler's `if (!rewards)` guard never
fires: the error results fall through, their absent `tl` / `diamonds`
fields coerce to 0.25, and the user is credited regardless of the
outcome. -/
def apiAdComplete (db : Db) (tg sid : Nat) (now : ℚ) : Db × CompleteResp :=
  let r := completeAdSession db sid tg now
  let tlReward := numOrQuarter (match r.2 with | .okReward tl _ => some tl | _ => none)
  let diaReward := numOrQuarter (match r.2 with | .okReward _ d => some d | _ => none)
  let db2 := creditUser r.1 tg tlReward diaReward
  let db3 := bumpDailyCounter db2 tg
  (db3, ⟨true, tlReward, diaReward⟩)

/-- Concrete database for the C2 failing scenario: user 1 with empty
balances and a pending 15-second session that has just started. -/
def dbC2 : Db :=
  { users := [⟨1, 0, 0, 0⟩], sessions := [⟨1, 1, 15, 0, false, 1/4, 1/4⟩] }

end P0

namespace V1

/-- One row of `users` (index.js, first document; `balance_tl` +
`diamonds` schema variant). -/
structure User where
  tg_id : Nat
  balance_tl : ℚ
  diamonds : ℚ
  daily_ads_watched : Nat
  deriving Repr, DecidableEq

/-- One row of `ad_sessions` (index.js, first document): the reward
snapshot is stored in the session row at creation. -/
structure Session where
  id : Nat
  tg_id : Nat
  started_at : ℚ
  seconds : Nat
  reward_tl : ℚ
  reward_diamonds : ℚ
  completed : Bool
  deriving Repr, DecidableEq

/-- The database state used by the index.js (first document) flow. -/
structure Db where
  users : List User
  sessions : List Session
  deriving Repr, DecidableEq

/-- `createAdSession` (index.js, first document): INSERT a pending
session carrying the reward snapshot; returns the fresh id. -/
def createAdSession (db : Db) (tg : Nat) (seconds : Nat) (rTl rDia : ℚ)
    (newId : Nat) (now : ℚ) : Db × Nat :=
  ({ db with sessions := db.sessions ++ [⟨newId, tg, now, seconds, rTl, rDia, false⟩] }, newId)

/-- `completeAdSession` (index.js, first document): conditional UPDATE
`WHERE id AND tg_id AND completed=false RETURNING reward_tl,
reward_diamonds`; `null` when no row was flipped. -/
def completeAdSession (db : Db) (sid tg : Nat) : Db × Option (ℚ × ℚ) :=
  match db.sessions.find? (fun s => s.id == sid && s.tg_id == tg && !s.completed) with
  | none => (db, none)
  | some s =>
      ({ db with sessions := db.sessions.map (fun x =>
            if x.id == sid && x.tg_id == tg && !x.completed then
              { x with completed := true }
            else x) },
       some (s.reward_tl, s.reward_diamonds))

/-- `creditUser` (index.js, first document): additive UPDATE on both
balance columns; when no row matched, INSERT the user (all balances
defaulting to 0) and retry the same UPDATE. -/
def creditUser (db : Db) (tg : Nat) (tl dia : ℚ) : Db :=
  if db.users.any (fun u => u.tg_id == tg) then
    { db with users := db.users.map (fun u =>
        if u.tg_id == tg then
          { u with balance_tl := u.balance_tl + tl, diamonds := u.diamonds + dia }
        else u) }
  else
    { db with users := db.users ++ [⟨tg, 0 + tl, 0 + dia, 0⟩] }

/-- `bumpDailyCounter` (index.js, first document). -/
def bumpDailyCounter (db : Db) (tg : Nat) : Db :=
  { db with users := db.users.map (fun u =>
      if u.tg_id == tg then { u with daily_ads_watched := u.daily_ads_watched + 1 } else u) }

/-- Responses of `POST /api/ad/complete` (index.js, first document). -/
inductive CompleteResp where
  | alreadyOrNotFound
  | okReward (tl_reward diamond_reward : ℚ)
  deriving Repr, DecidableEq

/-- `POST /api/ad/complete` (index.js, first document): flip the session
via `completeAdSession`, answer 409 when nothing was flipped, otherwise
credit `Number(rewards.tl) || 0.25` and `Number(rewards.diamonds) ||
0.25` and bump the daily counter. -/
def apiAdComplete (db : Db) (tg sid : Nat) : Db × CompleteResp :=
  match completeAdSession db sid tg with
  | (db1, none) => (db1, .alreadyOrNotFound)
  | (db1, some rd) =>
      let tlReward := if rd.1 = 0 then 1/4 else rd.1
      let diaReward := if rd.2 = 0 then 1/4 else rd.2
      let db2 := creditUser db1 tg tlReward diaReward
      (bumpDailyCounter db2 tg, .okReward tlReward diaReward)

/-- TL balance of a user, 0 when the row is absent. -/
def balTl (db : Db) (tg : Nat) : ℚ :=
  ((db.users.find? (fun u => u.tg_id == tg)).map (fun u => u.balance_tl)).getD 0

/-- Diamond balance of a user, 0 when the row is absent. -/
def balDia (db : Db) (tg : Nat) : ℚ :=
  ((db.users.find? (fun u => u.tg_id == tg)).map (fun u => u.diamonds)).getD 0

/-- Concrete database for the C4 witness: session 9 snapshots a reward
of 0.30 TL / 0.20 diamonds. -/
def dbC4 : Db :=
  { users := [⟨1, 10, 20, 3⟩], sessions := [⟨9, 1, 0, 15, 3/10, 1/5, false⟩] }

/-- `ensureUser` (index.js, first document): INSERT the user row
`ON CONFLICT (tg_id) DO NOTHING`, all balances and the counter
defaulting to 0.  (The username / first_name columns play no role in
the modelled logic.) -/
def ensureUser (db : Db) (tg : Nat) : Db :=
  if db.users.any (fun u => u.tg_id == tg) then db
  else { db with users := db.users ++ [⟨tg, 0, 0, 0⟩] }

/-- `getDailyLimitInfo` (index.js, first document): read the day-less
`users.daily_ads_watched` counter (0 when the row or column is absent)
against the fixed limit 50.  There is no `(tg_id, day)` key anywhere:
nothing ever resets this counter. -/
def getDailyLimitInfo (db : Db) (tg : Nat) : Nat × Nat :=
  (((db.users.find? (fun u => u.tg_id == tg)).map (fun u => u.daily_ads_watched)).getD 0,
   50)

/-- Responses of `POST /api/ad/start` (index.js, first document). -/
inductive StartResp where
  | dailyLimit (seen limit : Nat)
  | ok (session_id seconds : Nat) (reward_tl reward_diamonds : ℚ) (seen limit : Nat)
  deriving Repr, DecidableEq

/-- `POST /api/ad/start` (index.js, first document): `ensureUser`, then
reject with `daily_limit` when `seen >= limit`, else create a pending
session with the fixed 15 s / 0.25 TL / 0.25 diamond snapshot and
answer with the (unchanged) `seen`.  The counter is NOT incremented
here; `bumpDailyCounter` runs in `/api/ad/complete`. -/
def apiAdStart (db : Db) (tg newId : Nat) (now : ℚ) : Db × StartResp :=
  let db0 := ensureUser db tg
  let info := getDailyLimitInfo db0 tg
  if info.2 ≤ info.1 then (db0, .dailyLimit info.1 info.2)
  else
    let c := createAdSession db0 tg 15 (1/4) (1/4) newId now
    (c.1, .ok c.2 15 (1/4) (1/4) info.1 info.2)

/-- Concrete database for the C1 counterexample: session 7 of user 1 is
already completed. -/
def dbC1V1 : Db :=
  { users := [⟨1, 2, 3, 0⟩], sessions := [⟨7, 1, 0, 15, 1/4, 1/4, true⟩] }

/-- Concrete database for the index.js half of the C1 witness: session
7 of user 1 is still pending. -/
def dbC1W : Db :=
  { users := [⟨1, 2, 3, 0⟩], sessions := [⟨7, 1, 0, 15, 1/4, 1/4, false⟩] }

/-- Concrete database for the C6 counterexample: user 1's day-less
counter already reads 50. -/
def dbC6V1 : Db :=
  { users := [⟨1, 0, 0, 50⟩], sessions := [] }

/-- Concrete database for the C6 counterexample and witness: user 1's
day-less counter reads 3. -/
def dbC6V1b : Db :=
  { users := [⟨1, 0, 0, 3⟩], sessions := [] }

end V1

namespace P1

/-- Status of a `withdrawals` row (part_001). -/
inductive WSt where
  | pending
  | approved
  | rejected
  deriving Repr, DecidableEq

/-- One row of `users` (part_001 schema: `balance`, `diamonds`,
`referred_by`). -/
structure User where
  tg_id : Nat
  balance : ℚ
  diamonds : ℚ
  referred_by : Option Nat
  deriving Repr, DecidableEq

/-- One row of `ads` (part_001 schema; the `type`/`url` columns play no
role in the modelled logic). -/
structure Ad where
  id : Nat
  seconds : Nat
  reward_tl : ℚ
  reward_gem : ℚ
  is_vip : Bool
  active : Bool
  max_clicks : Option Nat
  clicks : Nat
  deriving Repr, DecidableEq

/-- One row of `ad_sessions` (part_001 schema: `status` is
started/completed, modelled as the `completed` flag; no reward columns —
rewards are read from the `ads` row at completion time). -/
structure Session where
  session_id : Nat
  tg_id : Nat
  ad_id : Nat
  completed : Bool
  deriving Repr, DecidableEq

/-- One row of `daily_views` (part_001): keyed by `(tg_id, day)` where
`day` is the UTC calendar date from `todayISO()`, modelled as a day
number. -/
structure Daily where
  tg_id : Nat
  day : Nat
  seen : Nat
  deriving Repr, DecidableEq

/-- One row of `withdrawals` (part_001). -/
structure Wd where
  id : Nat
  tg_id : Nat
  amount_tl : ℚ
  status : WSt
  deriving Repr, DecidableEq

/-- The database state used by the part_001 flows. -/
structure Db where
  users : List User
  ads : List Ad
  sessions : List Session
  daily_views : List Daily
  withdrawals : List Wd
  deriving Repr, DecidableEq

/-- `SETTINGS.daily_limit` (part_001). -/
def daily_limit : Nat := 50

/-- `SETTINGS.referral_ad_percent` (part_001): ongoing 5% commission. -/
def referral_ad_percent : ℚ := 5/100

/-- `SETTINGS.referral_new_user_tl` (part_001): flat 18 TL new-user
bonus, granted at signup time, not at completion time. -/
def referral_new_user_tl : ℚ := 18

/-- `SETTINGS.min_withdraw_tl` (part_001). -/
def min_withdraw_tl : ℚ := 250

/-- `getDaily` (part_001): INSERT the `(tg_id, day)` row with `seen=0`
if absent (`ON CONFLICT DO NOTHING`), then SELECT `seen`, defaulting to
0. -/
def getDaily (db : Db) (tg day : Nat) : Db × Nat :=
  let db1 :=
    if db.daily_views.any (fun r => r.tg_id == tg && r.day == day) then db
    else { db with daily_views := db.daily_views ++ [⟨tg, day, 0⟩] }
  (db1,
   ((db1.daily_views.find? (fun r => r.tg_id == tg && r.day == day)).map
      (fun r => r.seen)).getD 0)

/-- The `WHERE` filter of the ad-picking query in `/api/ad/start`
(part_001): `active=TRUE AND is_vip=$1 AND (max_clicks IS NULL OR
clicks < max_clicks)`. -/
def eligibleAds (db : Db) (vip : Bool) : List Ad :=
  db.ads.filter (fun a =>
    a.active && a.is_vip == vip &&
      (match a.max_clicks with
       | none => true
       | some m => a.clicks < m))

/-- Responses of `POST /api/ad/start` (part_001). -/
inductive StartRes where
  | dailyLimit (seen limit : Nat)
  | noAds
  | ok (session_id seen limit adSeconds : Nat)
  deriving Repr, DecidableEq

/-- `POST /api/ad/start` (part_001): check the daily counter against the
limit, pick an eligible ad (`ORDER BY RANDOM() LIMIT 1`, modelled by the
`choice` index into the eligible rows), INSERT a pending session, and
increment today's `seen` immediately. -/
def apiAdStart (db : Db) (tg : Nat) (vip : Bool) (day choice newSid : Nat) :
    Db × StartRes :=
  let dr := getDaily db tg day
  if daily_limit ≤ dr.2 then (dr.1, .dailyLimit dr.2 daily_limit)
  else
    let es := eligibleAds dr.1 vip
    match es.get? (choice % es.length) with
    | none => (dr.1, .noAds)
    | some ad =>
        let db2 : Db := { dr.1 with sessions := dr.1.sessions ++ [⟨newSid, tg, ad.id, false⟩] }
        let db3 : Db := { db2 with daily_views := db2.daily_views.map (fun r =>
              if r.tg_id == tg && r.day == day then { r with seen := r.seen + 1 } else r) }
        (db3, .ok newSid (dr.2 + 1) daily_limit ad.seconds)

/-- Responses of `POST /api/ad/complete` (part_001). -/
inductive CompleteRes where
  | invalidSession
  | okZero
  | ok (reward_tl reward_gem : ℚ)
  deriving Repr, DecidableEq

/-- `POST /api/ad/complete` (part_001): join the session with its ad,
answer `{reward 0}` if already completed, otherwise credit the watcher
with the ad's current reward columns, credit the referrer
`round2(reward_tl × 5%)` when one is set and the bonus is positive, then
mark the session completed and increment the ad's `clicks` (a plain
`clicks = clicks + 1` UPDATE with no deactivation). -/
def apiAdComplete (db : Db) (tg sid : Nat) : Db × CompleteRes :=
  match db.sessions.find? (fun s => s.session_id == sid && s.tg_id == tg) with
  | none => (db, .invalidSession)
  | some s =>
      match db.ads.find? (fun a => a.id == s.ad_id) with
      | none => (db, .invalidSession)
      | some a =>
          if s.completed then (db, .okZero)
          else
            let rtl := a.reward_tl
            let rgem := a.reward_gem
            let db1 : Db := { db with users := db.users.map (fun u =>
                  if u.tg_id == tg then
                    { u with balance := u.balance + rtl, diamonds := u.diamonds + rgem }
                  else u) }
            let refId := ((db1.users.find? (fun u => u.tg_id == tg)).bind
                (fun u => u.referred_by)).getD 0
            let db2 :=
              if refId = 0 then db1
              else
                let bonus := round2 (rtl * referral_ad_percent)
                if 0 < bonus then
                  { db1 with users := db1.users.map (fun u =>
                      if u.tg_id == refId then { u with balance := u.balance + bonus } else u) }
                else db1
            let db3 : Db := { db2 with sessions := db2.sessions.map (fun x =>
                  if x.session_id == sid then { x with completed := true } else x) }
            let db4 : Db := { db3 with ads := db3.ads.map (fun x =>
                  if x.id == s.ad_id then { x with clicks := x.clicks + 1 } else x) }
            (db4, .ok rtl rgem)

/-- Responses of `POST /api/withdraw/request` (part_001). -/
inductive WReqRes where
  | badRequest
  | minWithdraw
  | insufficientBalance
  | ok
  deriving Repr, DecidableEq

/-- `POST /api/withdraw/request` (part_001): validate, then reserve the
funds by debiting the balance immediately and INSERT a pending
`withdrawals` row.  (`full_name` / `iban` are assumed non-empty; they
never influence balances.) -/
def apiWithdrawRequest (db : Db) (tg : Nat) (amount : ℚ) (newId : Nat) :
    Db × WReqRes :=
  if tg = 0 ∨ amount = 0 then (db, .badRequest)
  else if amount < min_withdraw_tl then (db, .minWithdraw)
  else
    let bal := ((db.users.find? (fun u => u.tg_id == tg)).map (fun u => u.balance)).getD 0
    if bal < amount then (db, .insufficientBalance)
    else
      let db1 : Db := { db with users := db.users.map (fun u =>
            if u.tg_id == tg then { u with balance := u.balance - amount } else u) }
      ({ db1 with withdrawals := db1.withdrawals ++ [⟨newId, tg, amount, .pending⟩] }, .ok)

/-- Responses of the admin withdrawal decisions (part_001). -/
inductive WDecRes where
  | notFound
  | ok
  deriving Repr, DecidableEq

/-- `POST /api/admin/withdrawals/reject` (part_001): look up the pending
request, refund the reserved amount to the user and mark the request
rejected. -/
def adminWithdrawalsReject (db : Db) (id : Nat) : Db × WDecRes :=
  match db.withdrawals.find? (fun w => w.id == id && w.status == WSt.pending) with
  | none => (db, .notFound)
  | some w =>
      let db1 : Db := { db with users := db.users.map (fun u =>
            if u.tg_id == w.tg_id then { u with balance := u.balance + w.amount_tl } else u) }
      ({ db1 with withdrawals := db1.withdrawals.map (fun x =>
            if x.id == id then { x with status := WSt.rejected } else x) }, .ok)

/-- `POST /api/admin/withdrawals/approve` (part_001): set the status of
the pending request to approved; the user's balance is not touched
(it was already debited at request time). -/
def adminWithdrawalsApprove (db : Db) (id : Nat) : Db :=
  { db with withdrawals := db.withdrawals.map (fun w =>
      if w.id == id && w.status == WSt.pending then { w with status := WSt.approved } else w) }

/-- TL balance of a user, 0 when the row is absent. -/
def balanceOf (db : Db) (tg : Nat) : ℚ :=
  ((db.users.find? (fun u => u.tg_id == tg)).map (fun u => u.balance)).getD 0

/-- Diamond balance of a user, 0 when the row is absent. -/
def diamondsOf (db : Db) (tg : Nat) : ℚ :=
  ((db.users.find? (fun u => u.tg_id == tg)).map (fun u => u.diamonds)).getD 0

/-- Concrete database for the C5 counterexample: user 1 was referred by
user 2 and has no completed session yet; the only ad pays 0.25 TL /
0.25 gems. -/
def dbC5 : Db :=
  { users := [⟨1, 0, 0, some 2⟩, ⟨2, 0, 0, none⟩]
    ads := [⟨1, 15, 1/4, 1/4, false, true, none, 0⟩]
    sessions := [⟨1, 1, 1, false⟩]
    daily_views := []
    withdrawals := [] }

/-- Concrete database for the C5 witness: like `dbC5` but the referrer
(user 2) holds 7 TL. -/
def dbC5W : Db :=
  { users := [⟨1, 0, 0, some 2⟩, ⟨2, 7, 0, none⟩]
    ads := [⟨1, 15, 1/4, 1/4, false, true, none, 0⟩]
    sessions := [⟨1, 1, 1, false⟩]
    daily_views := []
    withdrawals := [] }

/-- Concrete database for the C7 counterexample: ad 1 has
`max_clicks = 1` and 0 clicks so far. -/
def dbC7 : Db :=
  { users := [⟨1, 0, 0, none⟩]
    ads := [⟨1, 15, 1/4, 1/4, false, true, some 1, 0⟩]
    sessions := [⟨1, 1, 1, false⟩]
    daily_views := []
    withdrawals := [] }

/-- Concrete database for the C6 witness. -/
def dbC6 : Db :=
  { users := [⟨1, 0, 0, none⟩]
    ads := [⟨1, 15, 1/4, 1/4, false, true, none, 0⟩]
    sessions := []
    daily_views := [⟨1, 100, 50⟩]
    withdrawals := [] }

/-- Concrete database for the C9 witness. -/
def dbC9 : Db :=
  { users := [⟨1, 400, 0, none⟩]
    ads := []
    sessions := []
    daily_views := []
    withdrawals := [⟨1, 1, 10, .rejected⟩] }

/-- Concrete database for the part_001 half of the C8 witness. -/
def dbC8a : Db :=
  { users := [⟨1, 400, 0, none⟩]
    ads := []
    sessions := []
    daily_views := []
    withdrawals := [] }

end P1

namespace V2

/-- Status of a `withdraw_requests` row (index.js, second document). -/
inductive WSt2 where
  | pending
  | approved
  | rejected
  | paid
  deriving Repr, DecidableEq

/-- One row of `users` (index.js, second document: `balance`,
`diamonds`). -/
structure User where
  tg_id : Nat
  balance : ℚ
  diamonds : ℚ
  deriving Repr, DecidableEq

/-- One row of `withdraw_requests` (index.js, second document). -/
structure Wd where
  id : Nat
  tg_id : Nat
  amount_tl : ℚ
  status : WSt2
  deriving Repr, DecidableEq

/-- The database state used by the index.js (second document) flows.
`gem_rate` and `min_withdraw` model the `app_settings` rows
`GEM_TO_TL_RATE` (default 0.25) and `MIN_WITHDRAW_TL` (default 250). -/
structure Db where
  users : List User
  withdraw_requests : List Wd
  gem_rate : ℚ
  min_withdraw : ℚ
  deriving Repr, DecidableEq

/-- Responses of `POST /api/convert` (index.js, second document). -/
inductive ConvRes where
  | gemsInvalid
  | rateInvalid
  | userNotFound
  | insufficientGems
  | ok (gems : ℤ) (tl_amount : ℚ)
  deriving Repr, DecidableEq

/-- `POST /api/convert` (index.js, second document): reject non-positive
`gems`, floor to an integer and reject again when the floor is not
positive, read the rate, and inside a transaction check the diamond
balance against the floored amount, then debit `gemsInt` diamonds and
credit `Number((gemsInt * rate).toFixed(2))` TL.  Every error path rolls
the transaction back, leaving the state unchanged.  (The
`diamond_conversions` audit INSERT is not modelled; it touches no
balance.) -/
def apiConvert (db : Db) (tg : Nat) (gems : ℚ) : Db × ConvRes :=
  if gems ≤ 0 then (db, .gemsInvalid)
  else
    let gemsInt : ℤ := ⌊gems⌋
    if gemsInt ≤ 0 then (db, .gemsInvalid)
    else if db.gem_rate ≤ 0 then (db, .rateInvalid)
    else
      let tlAmount := round2 ((gemsInt : ℚ) * db.gem_rate)
      match db.users.find? (fun u => u.tg_id == tg) with
      | none => (db, .userNotFound)
      | some u =>
          if u.diamonds < (gemsInt : ℚ) then (db, .insufficientGems)
          else
            ({ db with users := db.users.map (fun x =>
                  if x.tg_id == tg then
                    { x with diamonds := x.diamonds - (gemsInt : ℚ),
                             balance := x.balance + tlAmount }
                  else x) },
             .ok gemsInt tlAmount)

/-- Sum of the amounts of this user's requests `in ('pending',
'approved')` (index.js, second document). -/
def pendingSum (db : Db) (tg : Nat) : ℚ :=
  (db.withdraw_requests.filter (fun w =>
      w.tg_id == tg && (w.status == WSt2.pending || w.status == WSt2.approved))).foldl
    (fun acc w => acc + w.amount_tl) 0

/-- Responses of `POST /api/withdraw/request` (index.js, second
document). -/
inductive WReqRes2 where
  | badInput
  | minWithdraw
  | userNotFound
  | insufficientBalance
  | ok
  deriving Repr, DecidableEq

/-- `POST /api/withdraw/request` (index.js, second document): validate
the amount against the minimum and against `balance - pending holds`,
then INSERT a pending request for `Number(amount.toFixed(2))`.  The
balance itself is NOT debited here.  (`full_name` / `iban` are assumed
valid; they never influence balances.) -/
def apiWithdrawRequest (db : Db) (tg : Nat) (amount : ℚ) (newId : Nat) :
    Db × WReqRes2 :=
  if amount ≤ 0 then (db, .badInput)
  else if amount < db.min_withdraw then (db, .minWithdraw)
  else
    match db.users.find? (fun u => u.tg_id == tg) with
    | none => (db, .userNotFound)
    | some u =>
        if u.balance < pendingSum db tg + amount then (db, .insufficientBalance)
        else
          ({ db with withdraw_requests :=
                db.withdraw_requests ++ [⟨newId, tg, round2 amount, .pending⟩] }, .ok)

/-- Responses of `/admin_withdraw_paid` (index.js, second document). -/
inductive PaidRes where
  | notFound
  | alreadyPaid
  | ok
  deriving Repr, DecidableEq

/-- `/admin_withdraw_paid` (index.js, second document): lock the
request, refuse when already paid, otherwise debit
`greatest(balance - amount, 0)` from the user and mark the request
paid — the debit happens here, at payout time. -/
def adminWithdrawPaid (db : Db) (id : Nat) : Db × PaidRes :=
  match db.withdraw_requests.find? (fun w => w.id == id) with
  | none => (db, .notFound)
  | some w =>
      if w.status == WSt2.paid then (db, .alreadyPaid)
      else
        let db1 : Db := { db with users := db.users.map (fun u =>
              if u.tg_id == w.tg_id then
                { u with balance := max (u.balance - w.amount_tl) 0 }
              else u) }
        ({ db1 with withdraw_requests := db1.withdraw_requests.map (fun x =>
              if x.id == id then { x with status := WSt2.paid } else x) }, .ok)

/-- TL balance of a user, 0 when the row is absent. -/
def balanceOf2 (db : Db) (tg : Nat) : ℚ :=
  ((db.users.find? (fun u => u.tg_id == tg)).map (fun u => u.balance)).getD 0

/-- Diamond balance of a user, 0 when the row is absent. -/
def diamondsOf2 (db : Db) (tg : Nat) : ℚ :=
  ((db.users.find? (fun u => u.tg_id == tg)).map (fun u => u.diamonds)).getD 0

/-- Concrete database for the C8 counterexample: user 1 holds 300 TL,
minimum withdrawal 250 TL. -/
def dbC8 : Db :=
  { users := [⟨1, 300, 0⟩], withdraw_requests := [], gem_rate := 1/4, min_withdraw := 250 }

/-- Concrete database for the C10 witness: user 1 holds 5 diamonds,
rate 0.25. -/
def dbC10 : Db :=
  { users := [⟨1, 10, 5⟩], withdraw_requests := [], gem_rate := 1/4, min_withdraw := 250 }

/-- Concrete database for the payout half of the C8 witness: request 1
(250 TL by user 1) is still pending. -/
def dbC8paid : Db :=
  { users := [⟨1, 300, 0⟩], withdraw_requests := [⟨1, 1, 250, .pending⟩],
    gem_rate := 1/4, min_withdraw := 250 }

end V2

/-- `find?` through a row-conditional `UPDATE`: when the per-row update
`h` does not change the columns the predicate `p` inspects, locating a
row after the update locates the updated row. -/
theorem find_map_pred {α : Type} (l : List α) (p : α → Bool) (h : α → α)
    (hp : ∀ a, p (h a) = p a) :
    (l.map h).find? p = (l.find? p).map h := by
  induction l with
  | nil => rfl
  | cons a t ih =>
    cases hpa : p a with
    | true =>
      rw [List.map_cons, List.find?_cons_of_pos _ (by rw [hp a, hpa]),
        List.find?_cons_of_pos _ hpa, Option.map_some']
    | false =>
      rw [List.map_cons, List.find?_cons_of_neg _ (by rw [hp a, hpa]; exact Bool.false_ne_true),
        List.find?_cons_of_neg _ (by rw [hpa]; exact Bool.false_ne_true), ih]

/-- C1 counterexample: in the first index.js document (cited lines
387-395) a second complete call for the already-completed session 7
makes the conditional `WHERE completed=false` UPDATE match no row, so
the handler answers the 409 error `already_completed_or_not_found` —
an error, not the claimed `{already: true}` success — while changing
nothing. -/
theorem duplicate_complete_is_error_counterexample :
    V1.apiAdComplete V1.dbC1V1 1 7 = (V1.dbC1V1, V1.CompleteResp.alreadyOrNotFound) := by
  norm_num [V1.apiAdComplete, V1.completeAdSession, V1.dbC1V1, List.find?]

/-- C1 amended: a repeated complete call never credits a second reward,
but only part_002 answers it with `{already: true}`; the index.js
variant rejects it with the 409 error.  In part_002, completing a
pending session credits 0.25/0.25 once and the repeated call (any
time, commit failing or not) answers `already` and leaves the state
untouched; in the index.js variant, completing a pending session
credits its snapshot once and the repeated call answers
`already_completed_or_not_found` and leaves the state untouched — in
both, the watcher's total balance change across the two calls equals
exactly one reward. -/
theorem complete_once_both_variants
    (db : P2.Db) (tg sid : Nat) (now now2 : ℚ) (ck2 : Bool)
    (u : P2.User) (hu : db.users.find? (fun x => x.tg_id == tg) = some u)
    (s : P2.Session) (hs : db.sessions.find? (fun x => x.id == sid) = some s)
    (hown : s.tg_id = tg) (hpend : s.completed = false)
    (htime : ¬ (now - s.started_at + 1/2 < (s.seconds : ℚ)))
    (dbv : V1.Db) (tgv sidv : Nat)
    (sv : V1.Session)
    (hsv : dbv.sessions.find?
      (fun x => x.id == sidv && x.tg_id == tgv && !x.completed) = some sv)
    (htlv : sv.reward_tl ≠ 0) (hdiav : sv.reward_diamonds ≠ 0)
    (uv : V1.User) (huv : dbv.users.find? (fun x => x.tg_id == tgv) = some uv) :
    (P2.adComplete db tg sid now true).2
        = P2.CompleteResp.success (u.balance_tl + 1/4) (u.diamonds + 1/4) ∧
    P2.balTl (P2.adComplete db tg sid now true).1 tg = u.balance_tl + 1/4 ∧
    P2.balDia (P2.adComplete db tg sid now true).1 tg = u.diamonds + 1/4 ∧
    P2.adComplete (P2.adComplete db tg sid now true).1 tg sid now2 ck2
      = ((P2.adComplete db tg sid now true).1, P2.CompleteResp.alreadyOk) ∧
    (V1.apiAdComplete dbv tgv sidv).2
        = V1.CompleteResp.okReward sv.reward_tl sv.reward_diamonds ∧
    V1.balTl (V1.apiAdComplete dbv tgv sidv).1 tgv = uv.balance_tl + sv.reward_tl ∧
    V1.balDia (V1.apiAdComplete dbv tgv sidv).1 tgv = uv.diamonds + sv.reward_diamonds ∧
    V1.apiAdComplete (V1.apiAdComplete dbv tgv sidv).1 tgv sidv
      = ((V1.apiAdComplete dbv tgv sidv).1, V1.CompleteResp.alreadyOrNotFound) := by
  have hueq : u.tg_id = tg := by
    have h := List.find?_some hu
    simpa using h
  have hseq : s.id = sid := by
    have h := List.find?_some hs
    simpa using h
  have hfu : ∀ a : P2.User,
      ((if a.tg_id == tg then
          { a with balance_tl := a.balance_tl + P2.WATCH_REWARD_TL,
                   diamonds := a.diamonds + P2.WATCH_REWARD_DIAMONDS }
        else a).tg_id == tg) = (a.tg_id == tg) := by
    intro a
    by_cases h : (a.tg_id == tg) = true
    · simp [h]
    · simp [h]
  have hfs : ∀ a : P2.Session,
      ((if a.id == sid then { a with completed := true } else a).id == sid)
        = (a.id == sid) := by
    intro a
    by_cases h : (a.id == sid) = true
    · simp [h]
    · simp [h]
  have hmain : P2.adComplete db tg sid now true =
      ({ users := db.users.map (fun x =>
            if x.tg_id == tg then
              { x with balance_tl := x.balance_tl + P2.WATCH_REWARD_TL,
                       diamonds := x.diamonds + P2.WATCH_REWARD_DIAMONDS }
            else x),
         sessions := db.sessions.map (fun x =>
            if x.id == sid then { x with completed := true } else x) },
       P2.CompleteResp.success (u.balance_tl + 1/4) (u.diamonds + 1/4)) := by
    simp only [P2.adComplete, hs, hown, hpend, P2.creditUser, hu]
    rw [if_neg (by simp), if_neg (by simp), if_neg htime]
    simp [P2.WATCH_REWARD_TL, P2.WATCH_REWARD_DIAMONDS]
  have hfindu : ((P2.adComplete db tg sid now true).1.users.find?
      (fun x => x.tg_id == tg)) = some
        { u with balance_tl := u.balance_tl + P2.WATCH_REWARD_TL,
                 diamonds := u.diamonds + P2.WATCH_REWARD_DIAMONDS } := by
    rw [hmain]
    show (db.users.map _).find? _ = _
    rw [find_map_pred db.users _ _ hfu, hu]
    simp [hueq]
  have hfinds : ((P2.adComplete db tg sid now true).1.sessions.find?
      (fun x => x.id == sid)) = some { s with completed := true } := by
    rw [hmain]
    show (db.sessions.map _).find? _ = _
    rw [find_map_pred db.sessions _ _ hfs, hs]
    simp [hseq]
  have huveq : uv.tg_id = tgv := by
    have h := List.find?_some huv
    simpa using h
  have hanyv : dbv.users.any (fun x => x.tg_id == tgv) = true :=
    List.any_eq_true.mpr ⟨uv, List.mem_of_find?_eq_some huv, by simp [huveq]⟩
  have hfcv : ∀ a : V1.User,
      ((if a.tg_id == tgv then
          { a with balance_tl := a.balance_tl + sv.reward_tl,
                   diamonds := a.diamonds + sv.reward_diamonds }
        else a).tg_id == tgv) = (a.tg_id == tgv) := by
    intro a
    by_cases h : (a.tg_id == tgv) = true
    · simp [h]
    · simp [h]
  have hfbv : ∀ a : V1.User,
      ((if a.tg_id == tgv then { a with daily_ads_watched := a.daily_ads_watched + 1 }
        else a).tg_id == tgv) = (a.tg_id == tgv) := by
    intro a
    by_cases h : (a.tg_id == tgv) = true
    · simp [h]
    · simp [h]
  have hmainv : V1.apiAdComplete dbv tgv sidv =
      ({ users := (dbv.users.map (fun x =>
            if x.tg_id == tgv then
              { x with balance_tl := x.balance_tl + sv.reward_tl,
                       diamonds := x.diamonds + sv.reward_diamonds }
            else x)).map (fun x =>
            if x.tg_id == tgv then { x with daily_ads_watched := x.daily_ads_watched + 1 }
            else x),
         sessions := dbv.sessions.map (fun x =>
            if x.id == sidv && x.tg_id == tgv && !x.completed then
              { x with completed := true }
            else x) },
       V1.CompleteResp.okReward sv.reward_tl sv.reward_diamonds) := by
    simp only [V1.apiAdComplete, V1.completeAdSession, hsv, V1.creditUser,
      V1.bumpDailyCounter]
    rw [if_neg htlv, if_neg hdiav]
    simp [hanyv]
  have hfinduv : ((V1.apiAdComplete dbv tgv sidv).1.users.find?
      (fun x => x.tg_id == tgv))
      = some { uv with balance_tl := uv.balance_tl + sv.reward_tl,
                       diamonds := uv.diamonds + sv.reward_diamonds,
                       daily_ads_watched := uv.daily_ads_watched + 1 } := by
    rw [hmainv]
    show ((dbv.users.map _).map _).find? _ = _
    rw [find_map_pred _ _ _ hfbv, find_map_pred _ _ _ hfcv, huv]
    simp [huveq]
  have hnone2 : ((dbv.sessions.map (fun x =>
      if x.id == sidv && x.tg_id == tgv && !x.completed then { x with completed := true }
      else x)).find? (fun x => x.id == sidv && x.tg_id == tgv && !x.completed)) = none := by
    rw [List.find?_eq_none]
    intro x hx
    rcases List.mem_map.mp hx with ⟨y, hy, rfl⟩
    by_cases h : (y.id == sidv && y.tg_id == tgv && !y.completed) = true
    · rw [if_pos h]
      simp
    · rw [if_neg h]
      exact h
  have hsecondv : V1.apiAdComplete (V1.apiAdComplete dbv tgv sidv).1 tgv sidv
      = ((V1.apiAdComplete dbv tgv sidv).1, V1.CompleteResp.alreadyOrNotFound) := by
    rw [hmainv]
    simp only [V1.apiAdComplete, V1.completeAdSession, hnone2]
  refine ⟨by rw [hmain], ?_, ?_, ?_, by rw [hmainv], ?_, ?_, hsecondv⟩
  · rw [P2.balTl, hfindu]
    simp [P2.WATCH_REWARD_TL]
  · rw [P2.balDia, hfindu]
    simp [P2.WATCH_REWARD_DIAMONDS]
  · rw [P2.adComplete, hfinds]
    simp [hown]
  · rw [V1.balTl, hfinduv]
    rfl
  · rw [V1.balDia, hfinduv]
    rfl

/-- C1 witness: concrete run of `complete_once_both_variants`.
part_002 half: user 1 (2 TL / 3 diamonds) completes the pending 15 s
session 7 at t = 20 and retries at t = 99, gaining exactly 0.25/0.25 in
total.  index.js half: the same scenario on `dbC1W` (session 7
snapshots 0.25/0.25), where the retry answers the 409 error instead of
`already: true`, also with no further credit. -/
theorem complete_once_both_variants_witness :
    (P2.adComplete P2.dbC1 1 7 20 true).2
        = P2.CompleteResp.success (2 + 1/4) (3 + 1/4) ∧
    P2.balTl (P2.adComplete P2.dbC1 1 7 20 true).1 1 = 2 + 1/4 ∧
    P2.balDia (P2.adComplete P2.dbC1 1 7 20 true).1 1 = 3 + 1/4 ∧
    P2.adComplete (P2.adComplete P2.dbC1 1 7 20 true).1 1 7 99 false
      = ((P2.adComplete P2.dbC1 1 7 20 true).1, P2.CompleteResp.alreadyOk) ∧
    (V1.apiAdComplete V1.dbC1W 1 7).2 = V1.CompleteResp.okReward (1/4) (1/4) ∧
    V1.balTl (V1.apiAdComplete V1.dbC1W 1 7).1 1 = 2 + 1/4 ∧
    V1.balDia (V1.apiAdComplete V1.dbC1W 1 7).1 1 = 3 + 1/4 ∧
    V1.apiAdComplete (V1.apiAdComplete V1.dbC1W 1 7).1 1 7
      = ((V1.apiAdComplete V1.dbC1W 1 7).1, V1.CompleteResp.alreadyOrNotFound) :=
  complete_once_both_variants P2.dbC1 1 7 20 99 false ⟨1, 2, 3⟩ rfl ⟨7, 1, 15, 0, false⟩
    rfl rfl rfl (by norm_num) V1.dbC1W 1 7 ⟨7, 1, 0, 15, 1/4, 1/4, false⟩ rfl
    (by norm_num) (by norm_num) ⟨1, 2, 3, 0⟩ rfl

/-- C3: the part_002 `/api/ad/complete` handler does not make the
completion flip and the reward credit atomic.  `creditUser` runs on the
shared pool (auto-commit) while the flip is buffered in the client
transaction, so when the final COMMIT fails the handler answers 500
with the session still pending while the 0.25 TL / 0.25 diamond credit
has already taken effect: a credit without a flip, refuting "either
both happen or neither does". -/
theorem commit_failure_credits_without_flip :
    (P2.adComplete P2.dbC3 1 1 20 false).2 = P2.CompleteResp.serverError ∧
    P2.balTl (P2.adComplete P2.dbC3 1 1 20 false).1 1 = 1/4 ∧
    P2.balDia (P2.adComplete P2.dbC3 1 1 20 false).1 1 = 1/4 ∧
    P2.sessionCompleted (P2.adComplete P2.dbC3 1 1 20 false).1 1 = some false := by
  norm_num [P2.adComplete, P2.dbC3, P2.creditUser, P2.balTl, P2.balDia, P2.sessionCompleted,
    P2.WATCH_REWARD_TL, P2.WATCH_REWARD_DIAMONDS, List.find?]

/-- C2: in part_000 an early completion call is NOT rejected without
crediting.  `completeAdSession` itself computes the `too_early` refusal
(15 s session, called at elapsed 0, remaining = 15) and leaves the
session pending, but the `/api/ad/complete` route handler only checks
`if (!rewards)`, treats the truthy error object as success, credits
`Number(undefined) || 0.25` = 0.25 TL and 0.25 diamonds anyway, bumps
the daily counter, and answers `ok: true` — so the user's balance does
change on a too-early call, contradicting the claim (and the
function's own purpose). -/
theorem too_early_still_credits :
    (P0.completeAdSession P0.dbC2 1 1 0).2 = P0.CAResult.too_early 15 ∧
    (P0.apiAdComplete P0.dbC2 1 1 0).2 = ⟨true, 1/4, 1/4⟩ ∧
    (P0.apiAdComplete P0.dbC2 1 1 0).1.users = [⟨1, 1/4, 1/4, 1⟩] ∧
    ((P0.apiAdComplete P0.dbC2 1 1 0).1.sessions.find? (fun s => s.id == 1)).map
        (fun s => s.completed) = some false := by
  norm_num [P0.completeAdSession, P0.apiAdComplete, P0.dbC2, P0.creditUser,
    P0.bumpDailyCounter, P0.numOrQuarter, List.find?]

/-- C4: in the snapshot variant (index.js, first document) a successful
completion credits exactly the TL / diamond amounts snapshotted in the
session row (nonzero, as every snapshot written by the start flow is),
for ANY database contents around that row: the payout reads nothing but
the session row and the user row, so no change to the reward schedule
or to ad data made after the session was created can alter what a
pending session pays.  `createAdSession` stores the start-time reward
parameters verbatim in the new session row. -/
theorem snapshot_paid_exactly
    (db : V1.Db) (tg sid : Nat)
    (s : V1.Session)
    (hs : db.sessions.find? (fun x => x.id == sid && x.tg_id == tg && !x.completed) = some s)
    (htl : s.reward_tl ≠ 0) (hdia : s.reward_diamonds ≠ 0)
    (u : V1.User) (hu : db.users.find? (fun x => x.tg_id == tg) = some u) :
    (V1.apiAdComplete db tg sid).2
        = V1.CompleteResp.okReward s.reward_tl s.reward_diamonds ∧
    V1.balTl (V1.apiAdComplete db tg sid).1 tg = u.balance_tl + s.reward_tl ∧
    V1.balDia (V1.apiAdComplete db tg sid).1 tg = u.diamonds + s.reward_diamonds ∧
    (∀ (db' : V1.Db) (tg' secs : Nat) (rTl rDia : ℚ) (nid : Nat) (now : ℚ),
      (V1.createAdSession db' tg' secs rTl rDia nid now).1.sessions
        = db'.sessions ++ [⟨nid, tg', now, secs, rTl, rDia, false⟩]) := by
  have hueq : u.tg_id = tg := by
    have h := List.find?_some hu
    simpa using h
  have hany : db.users.any (fun x => x.tg_id == tg) = true :=
    List.any_eq_true.mpr ⟨u, List.mem_of_find?_eq_some hu, by simp [hueq]⟩
  have hfc : ∀ a : V1.User,
      ((if a.tg_id == tg then
          { a with balance_tl := a.balance_tl + s.reward_tl,
                   diamonds := a.diamonds + s.reward_diamonds }
        else a).tg_id == tg) = (a.tg_id == tg) := by
    intro a
    by_cases h : (a.tg_id == tg) = true
    · simp [h]
    · simp [h]
  have hfb : ∀ a : V1.User,
      ((if a.tg_id == tg then { a with daily_ads_watched := a.daily_ads_watched + 1 }
        else a).tg_id == tg) = (a.tg_id == tg) := by
    intro a
    by_cases h : (a.tg_id == tg) = true
    · simp [h]
    · simp [h]
  have hmain : V1.apiAdComplete db tg sid =
      ({ users := (db.users.map (fun x =>
            if x.tg_id == tg then
              { x with balance_tl := x.balance_tl + s.reward_tl,
                       diamonds := x.diamonds + s.reward_diamonds }
            else x)).map (fun x =>
            if x.tg_id == tg then { x with daily_ads_watched := x.daily_ads_watched + 1 }
            else x),
         sessions := db.sessions.map (fun x =>
            if x.id == sid && x.tg_id == tg && !x.completed then { x with completed := true }
            else x) },
       V1.CompleteResp.okReward s.reward_tl s.reward_diamonds) := by
    simp only [V1.apiAdComplete, V1.completeAdSession, hs, V1.creditUser,
      V1.bumpDailyCounter]
    rw [if_neg htl, if_neg hdia]
    simp [hany]
  have hfindu : ((V1.apiAdComplete db tg sid).1.users.find? (fun x => x.tg_id == tg))
      = some { u with balance_tl := u.balance_tl + s.reward_tl,
                      diamonds := u.diamonds + s.reward_diamonds,
                      daily_ads_watched := u.daily_ads_watched + 1 } := by
    rw [hmain]
    show ((db.users.map _).map _).find? _ = _
    rw [find_map_pred _ _ _ hfb, find_map_pred _ _ _ hfc, hu]
    simp [hueq]
  refine ⟨by rw [hmain], ?_, ?_, fun db' tg' secs rTl rDia nid now => rfl⟩
  · rw [V1.balTl, hfindu]
    rfl
  · rw [V1.balDia, hfindu]
    rfl

/-- C4 witness: concrete run of `snapshot_paid_exactly` on `dbC4`
(session 9 snapshots 0.30 TL / 0.20 diamonds; completion credits
exactly that snapshot on top of balances 10 / 20). -/
theorem snapshot_paid_exactly_witness :
    (V1.apiAdComplete V1.dbC4 1 9).2
        = V1.CompleteResp.okReward (3/10) (1/5) ∧
    V1.balTl (V1.apiAdComplete V1.dbC4 1 9).1 1 = 10 + 3/10 ∧
    V1.balDia (V1.apiAdComplete V1.dbC4 1 9).1 1 = 20 + 1/5 ∧
    (∀ (db' : V1.Db) (tg' secs : Nat) (rTl rDia : ℚ) (nid : Nat) (now : ℚ),
      (V1.createAdSession db' tg' secs rTl rDia nid now).1.sessions
        = db'.sessions ++ [⟨nid, tg', now, secs, rTl, rDia, false⟩]) :=
  snapshot_paid_exactly V1.dbC4 1 9 ⟨9, 1, 0, 15, 3/10, 1/5, false⟩ rfl
    (by norm_num) (by norm_num) ⟨1, 10, 20, 3⟩ rfl

/-- C5 counterexample: in part_001, completing the referred user's
first-ever session credits the referrer `round2(0.25 × 0.05)` = 0.01 TL
(the flat 5% ongoing commission), not the claimed
`round2(0.25 × (0.05 + 0.18))` = 0.06: there is no per-completion 18%
signup component. -/
theorem first_session_referral_counterexample :
    P1.balanceOf (P1.apiAdComplete P1.dbC5 1 1).1 2 = 1/100 ∧
    RB.round2 ((1/4) * (5/100 + 18/100)) = 6/100 ∧
    (1 : ℚ)/100 ≠ 6/100 := by
  norm_num [P1.apiAdComplete, P1.dbC5, P1.balanceOf, P1.referral_ad_percent, round2,
    round_eq, List.find?]

/-- C5 amended: in part_001, every completed session of a referred user
credits the referrer `round2(reward_tl × 0.05)` TL — the flat 5%
ongoing commission on the ad's TL reward, in a single balance UPDATE.
No hypothesis about the referred user's history is needed: the first
and every later completed session credit the referrer the same amount.
(The `referral_new_user_tl = 18` setting is a flat 18 TL bonus applied
by `ensureUserFromTg` at signup time, not a percentage at first
completion.) -/
theorem referral_flat_rate
    (db : P1.Db) (tg r sid : Nat)
    (s : P1.Session)
    (hs : db.sessions.find? (fun x => x.session_id == sid && x.tg_id == tg) = some s)
    (hpend : s.completed = false)
    (a : P1.Ad) (ha : db.ads.find? (fun x => x.id == s.ad_id) = some a)
    (u : P1.User) (hu : db.users.find? (fun x => x.tg_id == tg) = some u)
    (href : u.referred_by = some r) (hrpos : r ≠ 0) (hrtg : r ≠ tg)
    (ru : P1.User) (hru : db.users.find? (fun x => x.tg_id == r) = some ru)
    (hbonus : 0 < round2 (a.reward_tl * P1.referral_ad_percent)) :
    (P1.apiAdComplete db tg sid).2 = P1.CompleteRes.ok a.reward_tl a.reward_gem ∧
    P1.balanceOf (P1.apiAdComplete db tg sid).1 r
      = ru.balance + round2 (a.reward_tl * P1.referral_ad_percent) := by
  have hueq : u.tg_id = tg := by
    have h := List.find?_some hu
    simpa using h
  have hrueq : ru.tg_id = r := by
    have h := List.find?_some hru
    simpa using h
  have hfc : ∀ x : P1.User,
      ∀ p : Nat, ((if x.tg_id == tg then
          { x with balance := x.balance + a.reward_tl,
                   diamonds := x.diamonds + a.reward_gem }
        else x).tg_id == p) = (x.tg_id == p) := by
    intro x p
    by_cases h : (x.tg_id == tg) = true
    · simp [h]
    · simp [h]
  have hfr : ∀ x : P1.User,
      ∀ p : Nat, ((if x.tg_id == r then
          { x with balance := x.balance + round2 (a.reward_tl * P1.referral_ad_percent) }
        else x).tg_id == p) = (x.tg_id == p) := by
    intro x p
    by_cases h : (x.tg_id == r) = true
    · simp [h]
    · simp [h]
  have hstep1 : ((db.users.map (fun x =>
      if x.tg_id == tg then
        { x with balance := x.balance + a.reward_tl,
                 diamonds := x.diamonds + a.reward_gem }
      else x)).find? (fun x => x.tg_id == tg)) = some
        { u with balance := u.balance + a.reward_tl,
                 diamonds := u.diamonds + a.reward_gem } := by
    rw [find_map_pred _ _ _ (fun x => hfc x tg), hu]
    simp [hueq]
  constructor
  · simp only [P1.apiAdComplete, hs, ha]
    simp [hpend]
  · simp only [P1.apiAdComplete, hs, ha, hpend, Bool.false_eq_true, if_false,
      hstep1, Option.some_bind, Option.getD_some, href]
    rw [if_neg hrpos, if_pos hbonus]
    simp only [P1.balanceOf]
    rw [find_map_pred _ _ _ (fun x => hfr x r),
      find_map_pred _ _ _ (fun x => hfc x r), hru]
    have hne : (ru.tg_id == tg) = false := by
      simp [hrueq]
      exact hrtg
    simp [hne, hrueq, hrtg]

/-- C5 witness: concrete run of `referral_flat_rate`: user 1 (referred
by user 2, holding 7 TL) completes a session for an ad paying 0.25 TL;
user 2 is credited exactly round2(0.25 × 0.05) = 0.01 TL. -/
theorem referral_flat_rate_witness :
    (P1.apiAdComplete P1.dbC5W 1 1).2 = P1.CompleteRes.ok (1/4) (1/4) ∧
    P1.balanceOf (P1.apiAdComplete P1.dbC5W 1 1).1 2
      = 7 + round2 ((1/4) * P1.referral_ad_percent) :=
  referral_flat_rate P1.dbC5W 1 2 1 ⟨1, 1, 1, false⟩ rfl rfl
    ⟨1, 15, 1/4, 1/4, false, true, none, 0⟩ rfl ⟨1, 0, 0, some 2⟩ rfl rfl
    (by norm_num) (by norm_num) ⟨2, 7, 0, none⟩ rfl
    (by norm_num [round2, P1.referral_ad_percent, round_eq])

/-- C7 counterexample: in part_001 completing a session for ad 1
(`max_clicks = 1`, 0 clicks so far) increments `clicks` to its cap but
leaves `active = TRUE` — no deactivation happens in (or after) the
click-count UPDATE, so an ad whose clicks reached its cap stays
active. -/
theorem capped_ad_stays_active :
    ((P1.apiAdComplete P1.dbC7 1 1).1.ads.find? (fun a => a.id == 1)) =
      some ⟨1, 15, 1/4, 1/4, false, true, some 1, 1⟩ := by
  norm_num [P1.apiAdComplete, P1.dbC7, P1.referral_ad_percent, round2, round_eq, List.find?]

/-- C7 amended: in part_001 completing a session increments the
referenced ad's click counter with a plain `clicks = clicks + 1` UPDATE
and never changes its `active` flag; the conclusion that an ad whose
clicks reached its cap is never selected for a new session still
holds, but through the start query's `clicks < max_clicks` filter, not
through deactivation. -/
theorem clicks_increment_no_deactivate
    (db : P1.Db) (tg sid : Nat)
    (s : P1.Session)
    (hs : db.sessions.find? (fun x => x.session_id == sid && x.tg_id == tg) = some s)
    (hpend : s.completed = false)
    (a : P1.Ad) (ha : db.ads.find? (fun x => x.id == s.ad_id) = some a) :
    ((P1.apiAdComplete db tg sid).1.ads.find? (fun x => x.id == s.ad_id))
        = some { a with clicks := a.clicks + 1 } ∧
    (∀ (db2 : P1.Db) (vip : Bool) (b : P1.Ad) (m : Nat),
       b.max_clicks = some m → m ≤ b.clicks → b ∉ P1.eligibleAds db2 vip) := by
  have haeq : a.id = s.ad_id := by
    have h := List.find?_some ha
    simpa using h
  have hfa : ∀ x : P1.Ad,
      ((fun y : P1.Ad => y.id == s.ad_id)
        (if x.id == s.ad_id then { x with clicks := x.clicks + 1 } else x))
      = (x.id == s.ad_id) := by
    intro x
    by_cases h : (x.id == s.ad_id) = true
    · simp [h]
    · simp [h]
  constructor
  · have hads : (P1.apiAdComplete db tg sid).1.ads
        = db.ads.map (fun x =>
            if x.id == s.ad_id then { x with clicks := x.clicks + 1 } else x) := by
      simp only [P1.apiAdComplete, hs, ha, hpend, Bool.false_eq_true, if_false]
      simp [apply_ite (fun d : P1.Db => d.ads)]
    rw [hads, find_map_pred _ _ _ hfa, ha]
    simp [haeq]
  · intro db2 vip b m hbm hble hmem
    simp only [P1.eligibleAds] at hmem
    rcases List.mem_filter.mp hmem with ⟨-, hp⟩
    rw [hbm] at hp
    simp at hp
    exact absurd hp.2 (not_lt.mpr hble)

/-- C7 witness: concrete run of `clicks_increment_no_deactivate` on
`dbC7`: the completion bumps ad 1 to clicks = 1 = max_clicks with
`active` still true, and that capped ad is not in the eligible set of
any start call. -/
theorem clicks_increment_no_deactivate_witness :
    ((P1.apiAdComplete P1.dbC7 1 1).1.ads.find? (fun x => x.id == 1))
        = some ⟨1, 15, 1/4, 1/4, false, true, some 1, 1⟩ ∧
    (⟨1, 15, 1/4, 1/4, false, true, some 1, 1⟩ : P1.Ad) ∉ P1.eligibleAds P1.dbC7 false := by
  have h := clicks_increment_no_deactivate P1.dbC7 1 1 ⟨1, 1, 1, false⟩ rfl rfl
      ⟨1, 15, 1/4, 1/4, false, true, some 1, 0⟩ rfl
  exact ⟨h.1, h.2 P1.dbC7 false _ 1 rfl (by norm_num)⟩

/-- C9: in part_001 a withdrawal request immediately followed by its
rejection is a round trip on the user's TL balance: the request debits
the amount and inserts a pending row, the rejection refunds exactly
that stored amount and marks the row rejected, so the balance ends
where it started. -/
theorem withdraw_reject_roundtrip
    (db : P1.Db) (tg : Nat) (amount : ℚ) (newId : Nat)
    (u : P1.User) (hu : db.users.find? (fun x => x.tg_id == tg) = some u)
    (htg : tg ≠ 0) (hamt : amount ≠ 0) (hmin : P1.min_withdraw_tl ≤ amount)
    (hbal : amount ≤ u.balance)
    (hfresh : ∀ w ∈ db.withdrawals, w.id ≠ newId) :
    (P1.apiWithdrawRequest db tg amount newId).2 = P1.WReqRes.ok ∧
    P1.balanceOf (P1.apiWithdrawRequest db tg amount newId).1 tg = u.balance - amount ∧
    (P1.adminWithdrawalsReject (P1.apiWithdrawRequest db tg amount newId).1 newId).2
        = P1.WDecRes.ok ∧
    P1.balanceOf
        (P1.adminWithdrawalsReject (P1.apiWithdrawRequest db tg amount newId).1 newId).1 tg
      = u.balance ∧
    (((P1.adminWithdrawalsReject
          (P1.apiWithdrawRequest db tg amount newId).1 newId).1.withdrawals.find?
        (fun w => w.id == newId)).map (fun w => w.status)) = some P1.WSt.rejected := by
  have hueq : u.tg_id = tg := by
    have h := List.find?_some hu
    simpa using h
  have hnotor : ¬ (tg = 0 ∨ amount = 0) := by
    push_neg
    exact ⟨htg, hamt⟩
  have hfdeb : ∀ x : P1.User,
      ((fun y : P1.User => y.tg_id == tg)
        (if x.tg_id == tg then { x with balance := x.balance - amount } else x))
      = (x.tg_id == tg) := by
    intro x
    by_cases h : (x.tg_id == tg) = true
    · simp [h]
    · simp [h]
  have hreq : P1.apiWithdrawRequest db tg amount newId =
      ({ users := db.users.map (fun x =>
            if x.tg_id == tg then { x with balance := x.balance - amount } else x)
         ads := db.ads
         sessions := db.sessions
         daily_views := db.daily_views
         withdrawals := db.withdrawals ++ [⟨newId, tg, amount, P1.WSt.pending⟩] },
       P1.WReqRes.ok) := by
    simp only [P1.apiWithdrawRequest]
    rw [if_neg hnotor, if_neg (not_lt.mpr hmin), hu]
    simp only [Option.map_some', Option.getD_some]
    rw [if_neg (not_lt.mpr hbal)]
  have hleft : db.withdrawals.find?
      (fun w => w.id == newId && w.status == P1.WSt.pending) = none := by
    rw [List.find?_eq_none]
    intro w hw
    simp [hfresh w hw]
  have hfindw : ((db.withdrawals ++ ([⟨newId, tg, amount, P1.WSt.pending⟩] : List P1.Wd)).find?
      (fun w => w.id == newId && w.status == P1.WSt.pending))
        = some ⟨newId, tg, amount, P1.WSt.pending⟩ := by
    rw [List.find?_append, hleft]
    simp
  have hfref : ∀ x : P1.User,
      ((fun y : P1.User => y.tg_id == tg)
        (if x.tg_id == tg then { x with balance := x.balance + amount } else x))
      = (x.tg_id == tg) := by
    intro x
    by_cases h : (x.tg_id == tg) = true
    · simp [h]
    · simp [h]
  have hfst : ∀ x : P1.Wd,
      ((fun y : P1.Wd => y.id == newId)
        (if x.id == newId then { x with status := P1.WSt.rejected } else x))
      = (x.id == newId) := by
    intro x
    by_cases h : (x.id == newId) = true
    · simp [h]
    · simp [h]
  have hrej : (P1.adminWithdrawalsReject (P1.apiWithdrawRequest db tg amount newId).1 newId) =
      ({ users := ((db.users.map (fun x =>
              if x.tg_id == tg then { x with balance := x.balance - amount } else x)).map
            (fun x => if x.tg_id == tg then { x with balance := x.balance + amount } else x))
         ads := db.ads
         sessions := db.sessions
         daily_views := db.daily_views
         withdrawals := (db.withdrawals ++ ([⟨newId, tg, amount, P1.WSt.pending⟩] : List P1.Wd)).map
            (fun x : P1.Wd =>
              if x.id == newId then { x with status := P1.WSt.rejected } else x) },
       P1.WDecRes.ok) := by
    simp only [P1.adminWithdrawalsReject, hreq, hfindw]
  refine ⟨by rw [hreq], ?_, by rw [hrej], ?_, ?_⟩
  · rw [hreq]
    show ((db.users.map _).find? _ |>.map _).getD 0 = _
    rw [find_map_pred _ _ _ hfdeb, hu]
    simp [hueq]
  · rw [hrej]
    show ((((db.users.map _).map _).find? _).map _).getD 0 = _
    rw [find_map_pred _ _ _ hfref, find_map_pred _ _ _ hfdeb, hu]
    simp [hueq]
  · rw [hrej]
    show (((db.withdrawals ++ _).map _).find? _ |>.map _) = _
    rw [find_map_pred _ _ _ hfst, List.find?_append]
    have hleft2 : db.withdrawals.find? (fun w => w.id == newId) = none := by
      rw [List.find?_eq_none]
      intro w hw
      simp [hfresh w hw]
    rw [hleft2]
    simp

/-- C9 witness: concrete run of `withdraw_reject_roundtrip` on `dbC9`
(user 1 holds 400 TL, requests 250 TL as request 2, which is then
rejected): the balance returns to 400 and request 2 ends rejected. -/
theorem withdraw_reject_roundtrip_witness :
    (P1.apiWithdrawRequest P1.dbC9 1 250 2).2 = P1.WReqRes.ok ∧
    P1.balanceOf (P1.apiWithdrawRequest P1.dbC9 1 250 2).1 1 = 400 - 250 ∧
    (P1.adminWithdrawalsReject (P1.apiWithdrawRequest P1.dbC9 1 250 2).1 2).2
        = P1.WDecRes.ok ∧
    P1.balanceOf (P1.adminWithdrawalsReject (P1.apiWithdrawRequest P1.dbC9 1 250 2).1 2).1 1
      = 400 ∧
    (((P1.adminWithdrawalsReject
          (P1.apiWithdrawRequest P1.dbC9 1 250 2).1 2).1.withdrawals.find?
        (fun w => w.id == 2)).map (fun w => w.status)) = some P1.WSt.rejected :=
  withdraw_reject_roundtrip P1.dbC9 1 250 2 ⟨1, 400, 0, none⟩ rfl (by norm_num)
    (by norm_num) (by norm_num [P1.min_withdraw_tl]) (by norm_num)
    (by intro w hw; simp [P1.dbC9] at hw; subst hw; norm_num)

/-- C6 counterexample: in the first index.js document (cited lines
111-132) the daily counter is the day-less `users.daily_ads_watched`
column.  User 1 with counter 50 is rejected by `/api/ad/start` at
t = 0 AND at t = 86400, one full UTC day later — nothing keys the
counter by day and nothing ever resets it, so the claimed
"a start call on the following UTC day succeeds again" is false; and a
successful start for user 1 with counter 3 leaves the counter at 3 —
it is bumped to 4 only by `/api/ad/complete`, so "incremented at
session start" is false too. -/
theorem dayless_counter_counterexample :
    (V1.apiAdStart V1.dbC6V1 1 9 0).2 = V1.StartResp.dailyLimit 50 50 ∧
    (V1.apiAdStart V1.dbC6V1 1 9 86400).2 = V1.StartResp.dailyLimit 50 50 ∧
    ((V1.apiAdStart V1.dbC6V1b 1 9 0).1.users.find? (fun x => x.tg_id == 1)).map
        (fun x => x.daily_ads_watched) = some 3 ∧
    (((V1.apiAdComplete (V1.apiAdStart V1.dbC6V1b 1 9 0).1 1 9).1.users.find?
        (fun x => x.tg_id == 1)).map (fun x => x.daily_ads_watched)) = some 4 := by
  norm_num [V1.apiAdStart, V1.apiAdComplete, V1.completeAdSession, V1.creditUser,
    V1.bumpDailyCounter, V1.ensureUser, V1.getDailyLimitInfo, V1.createAdSession,
    V1.dbC6V1, V1.dbC6V1b, List.find?, List.any]

/-- C6 amended: the daily quota differs per variant.  In part_001 it is
keyed by `(tg_id, day)` rows of `daily_views` (`day` the UTC calendar
date) and the counter is bumped at session start: at the limit (50)
the start call answers `daily_limit` and changes nothing, below it the
call succeeds, appends a pending session and increments today's
counter, and on a day with no row yet the call succeeds again with
`seen = 1`.  In the first index.js document the counter is the
day-less `users.daily_ads_watched` column: at 50 the start call is
rejected regardless of the date (the counter never resets), and a
successful start leaves the users table — counter included —
untouched, the increment happening only at completion. -/
theorem daily_quota_variants :
    (∀ (db : P1.Db) (tg : Nat) (vip : Bool) (day choice newSid : Nat) (d : P1.Daily),
      db.daily_views.find? (fun x => x.tg_id == tg && x.day == day) = some d →
      (50 ≤ d.seen →
        P1.apiAdStart db tg vip day choice newSid
          = (db, P1.StartRes.dailyLimit d.seen 50)) ∧
      (d.seen < 50 → P1.eligibleAds db vip ≠ [] →
        ∃ ad ∈ P1.eligibleAds db vip,
          (P1.apiAdStart db tg vip day choice newSid).2
              = P1.StartRes.ok newSid (d.seen + 1) 50 ad.seconds ∧
          (P1.apiAdStart db tg vip day choice newSid).1.sessions
              = db.sessions ++ [⟨newSid, tg, ad.id, false⟩] ∧
          ((P1.apiAdStart db tg vip day choice newSid).1.daily_views.find?
              (fun x => x.tg_id == tg && x.day == day)).map (fun x => x.seen)
            = some (d.seen + 1)) ∧
      (∀ day2, db.daily_views.find? (fun x => x.tg_id == tg && x.day == day2) = none →
        P1.eligibleAds db vip ≠ [] →
        ∃ ad ∈ P1.eligibleAds db vip,
          (P1.apiAdStart db tg vip day2 choice newSid).2
              = P1.StartRes.ok newSid 1 50 ad.seconds)) ∧
    (∀ (db : V1.Db) (tg newId : Nat) (now : ℚ) (u : V1.User),
      db.users.find? (fun x => x.tg_id == tg) = some u →
      (V1.apiAdStart db tg newId now).1.users = db.users ∧
      (50 ≤ u.daily_ads_watched →
        V1.apiAdStart db tg newId now
          = (db, V1.StartResp.dailyLimit u.daily_ads_watched 50)) ∧
      (u.daily_ads_watched < 50 →
        (V1.apiAdStart db tg newId now).2
          = V1.StartResp.ok newId 15 (1/4) (1/4) u.daily_ads_watched 50)) := by
  refine ⟨?_, ?_⟩
  · intro db tg vip day choice newSid d hd
    have hdeq : d.tg_id = tg ∧ d.day = day := by
      have h := List.find?_some hd
      simpa using h
    have hany : db.daily_views.any (fun x => x.tg_id == tg && x.day == day) = true :=
      List.any_eq_true.mpr ⟨d, List.mem_of_find?_eq_some hd, by simp [hdeq.1, hdeq.2]⟩
    have hgd : P1.getDaily db tg day = (db, d.seen) := by
      simp [P1.getDaily, hany, hd]
    refine ⟨?_, ?_, ?_⟩
    · intro hle
      simp only [P1.apiAdStart, hgd]
      rw [if_pos (by simpa [P1.daily_limit] using hle)]
      rfl
    · intro hlt hne
      have hlen : 0 < (P1.eligibleAds db vip).length := List.length_pos.mpr hne
      have hk : choice % (P1.eligibleAds db vip).length < (P1.eligibleAds db vip).length :=
        Nat.mod_lt _ hlen
      have hget : (P1.eligibleAds db vip).get? (choice % (P1.eligibleAds db vip).length)
          = some ((P1.eligibleAds db vip).get ⟨_, hk⟩) := List.get?_eq_get hk
      have hfd : ∀ x : P1.Daily,
          ((fun y : P1.Daily => y.tg_id == tg && y.day == day)
            (if x.tg_id == tg && x.day == day then { x with seen := x.seen + 1 } else x))
          = (x.tg_id == tg && x.day == day) := by
        intro x
        by_cases h : (x.tg_id == tg && x.day == day) = true
        · simp [h]
        · simp [h]
      have hmain : P1.apiAdStart db tg vip day choice newSid =
          ({ users := db.users
             ads := db.ads
             sessions := db.sessions ++ [⟨newSid, tg, ((P1.eligibleAds db vip).get ⟨_, hk⟩).id, false⟩]
             daily_views := db.daily_views.map (fun x =>
                if x.tg_id == tg && x.day == day then { x with seen := x.seen + 1 } else x)
             withdrawals := db.withdrawals },
           P1.StartRes.ok newSid (d.seen + 1) 50
             ((P1.eligibleAds db vip).get ⟨_, hk⟩).seconds) := by
        simp only [P1.apiAdStart, hgd]
        rw [if_neg (by simpa [P1.daily_limit] using not_le.mpr hlt)]
        simp only [hget, P1.daily_limit]
      have hdv : (P1.apiAdStart db tg vip day choice newSid).1.daily_views
          = db.daily_views.map (fun x =>
              if x.tg_id == tg && x.day == day then { x with seen := x.seen + 1 } else x) := by
        rw [hmain]
      refine ⟨(P1.eligibleAds db vip).get ⟨_, hk⟩, List.get_mem _ _ _, by rw [hmain],
          by rw [hmain], ?_⟩
      rw [hdv, find_map_pred _ _ _ hfd, hd]
      simp [hdeq.1, hdeq.2]
    · intro day2 hnone hne
      have hany2 : db.daily_views.any (fun x => x.tg_id == tg && x.day == day2) = false := by
        rw [Bool.eq_false_iff]
        intro hc
        rcases List.any_eq_true.mp hc with ⟨x, hxmem, hxp⟩
        have := List.find?_eq_none.mp hnone x hxmem
        exact this hxp
      have hgd2 : P1.getDaily db tg day2 =
          ({ db with daily_views := db.daily_views ++ [⟨tg, day2, 0⟩] }, 0) := by
        simp only [P1.getDaily, hany2, Bool.false_eq_true, if_false, List.find?_append, hnone]
        simp
      have hne2 : P1.eligibleAds
          ({ db with daily_views := db.daily_views ++ [⟨tg, day2, 0⟩] } : P1.Db) vip
          = P1.eligibleAds db vip := rfl
      have hlen : 0 < (P1.eligibleAds db vip).length := List.length_pos.mpr hne
      have hk : choice % (P1.eligibleAds db vip).length < (P1.eligibleAds db vip).length :=
        Nat.mod_lt _ hlen
      have hget : (P1.eligibleAds db vip).get? (choice % (P1.eligibleAds db vip).length)
          = some ((P1.eligibleAds db vip).get ⟨_, hk⟩) := List.get?_eq_get hk
      refine ⟨(P1.eligibleAds db vip).get ⟨_, hk⟩, List.get_mem _ _ _, ?_⟩
      simp only [P1.apiAdStart, hgd2]
      rw [if_neg (by simp [P1.daily_limit])]
      simp only [hne2, hget]
      norm_num [P1.daily_limit]
  · intro db tg newId now u hu
    have hueq : u.tg_id = tg := by
      have h := List.find?_some hu
      simpa using h
    have hany : db.users.any (fun x => x.tg_id == tg) = true :=
      List.any_eq_true.mpr ⟨u, List.mem_of_find?_eq_some hu, by simp [hueq]⟩
    have hens : V1.ensureUser db tg = db := by
      simp [V1.ensureUser, hany]
    have hinfo : V1.getDailyLimitInfo db tg = (u.daily_ads_watched, 50) := by
      simp [V1.getDailyLimitInfo, hu]
    refine ⟨?_, ?_, ?_⟩
    · simp only [V1.apiAdStart, hens, hinfo]
      by_cases h : 50 ≤ u.daily_ads_watched
      · rw [if_pos h]
      · rw [if_neg h]
        rfl
    · intro hle
      simp only [V1.apiAdStart, hens, hinfo]
      rw [if_pos hle]
    · intro hlt
      simp only [V1.apiAdStart, hens, hinfo]
      rw [if_neg (not_le.mpr hlt)]
      rfl

/-- C6 witness: concrete runs of `daily_quota_variants`.  part_001 half
on `dbC6` (user 1 at 50 seen on day 100, one eligible ad): the 51st
start on day 100 is rejected with `daily_limit` and a start on day 101
(no row yet) succeeds with `seen = 1`.  index.js half: user 1 with the
day-less counter at 50 is rejected (on any date), and with the counter
at 3 a start succeeds while leaving the users table — counter included
— unchanged. -/
theorem daily_quota_variants_witness :
    P1.apiAdStart P1.dbC6 1 false 100 0 5 = (P1.dbC6, P1.StartRes.dailyLimit 50 50) ∧
    (∃ ad ∈ P1.eligibleAds P1.dbC6 false,
      (P1.apiAdStart P1.dbC6 1 false 101 0 5).2 = P1.StartRes.ok 5 1 50 ad.seconds) ∧
    V1.apiAdStart V1.dbC6V1 1 9 0 = (V1.dbC6V1, V1.StartResp.dailyLimit 50 50) ∧
    (V1.apiAdStart V1.dbC6V1b 1 9 0).2 = V1.StartResp.ok 9 15 (1/4) (1/4) 3 50 ∧
    (V1.apiAdStart V1.dbC6V1b 1 9 0).1.users = V1.dbC6V1b.users := by
  have h := daily_quota_variants
  have h1 := h.1 P1.dbC6 1 false 100 0 5 ⟨1, 100, 50⟩ rfl
  have h2 := h.2 V1.dbC6V1 1 9 0 ⟨1, 0, 0, 50⟩ rfl
  have h3 := h.2 V1.dbC6V1b 1 9 0 ⟨1, 0, 0, 3⟩ rfl
  exact ⟨h1.1 (by norm_num), h1.2.2 101 rfl (by decide), h2.2.1 (by norm_num),
    h3.2.2 (by norm_num), h3.1⟩

/-- C8 counterexample: in the index.js admin-payout variant an accepted
withdrawal request does not debit the balance (user 1 still holds 300
TL after requesting 250 TL); the deduction happens later, when the
admin marks the request paid (balance drops to 50 TL) — refuting
"debited at request time" and "marking paid causes no further
deduction". -/
theorem withdraw_debited_at_paid_counterexample :
    (V2.apiWithdrawRequest V2.dbC8 1 250 1).2 = V2.WReqRes2.ok ∧
    V2.balanceOf2 (V2.apiWithdrawRequest V2.dbC8 1 250 1).1 1 = 300 ∧
    (V2.adminWithdrawPaid (V2.apiWithdrawRequest V2.dbC8 1 250 1).1 1).2 = V2.PaidRes.ok ∧
    V2.balanceOf2 (V2.adminWithdrawPaid (V2.apiWithdrawRequest V2.dbC8 1 250 1).1 1).1 1
      = 50 := by
  norm_num [V2.apiWithdrawRequest, V2.adminWithdrawPaid, V2.dbC8, V2.balanceOf2,
    V2.pendingSum, round2, round_eq, List.find?, List.filter]
  decide

/-- C8 amended: the withdrawal hold differs per variant.  In part_001
the amount is debited from the balance at request time and a later
approval changes no user balance (the hold already happened, rejection
refunds it); in the index.js admin-payout variant the request only
validates the amount against `balance - pending holds` and debits
nothing, and the single debit `greatest(balance - amount, 0)` happens
when the admin marks the request paid. -/
theorem withdraw_hold_variants :
    (∀ (db : P1.Db) (tg : Nat) (amount : ℚ) (newId : Nat) (u : P1.User),
       db.users.find? (fun x => x.tg_id == tg) = some u →
       tg ≠ 0 → amount ≠ 0 → P1.min_withdraw_tl ≤ amount → amount ≤ u.balance →
       (P1.apiWithdrawRequest db tg amount newId).2 = P1.WReqRes.ok ∧
       P1.balanceOf (P1.apiWithdrawRequest db tg amount newId).1 tg
         = u.balance - amount) ∧
    (∀ (db : P1.Db) (i : Nat), (P1.adminWithdrawalsApprove db i).users = db.users) ∧
    (∀ (db : V2.Db) (tg : Nat) (amount : ℚ) (newId : Nat) (u : V2.User),
       db.users.find? (fun x => x.tg_id == tg) = some u →
       0 < amount → db.min_withdraw ≤ amount →
       V2.pendingSum db tg + amount ≤ u.balance →
       (V2.apiWithdrawRequest db tg amount newId).2 = V2.WReqRes2.ok ∧
       (V2.apiWithdrawRequest db tg amount newId).1.users = db.users) ∧
    (∀ (db : V2.Db) (rid : Nat) (w : V2.Wd) (uw : V2.User),
       db.withdraw_requests.find? (fun x => x.id == rid) = some w →
       w.status ≠ V2.WSt2.paid →
       db.users.find? (fun x => x.tg_id == w.tg_id) = some uw →
       V2.balanceOf2 (V2.adminWithdrawPaid db rid).1 w.tg_id
         = max (uw.balance - w.amount_tl) 0) := by
  refine ⟨?_, fun db i => rfl, ?_, ?_⟩
  · intro db tg amount newId u hu htg hamt hmin hbal
    have hueq : u.tg_id = tg := by
      have h := List.find?_some hu
      simpa using h
    have hfdeb : ∀ x : P1.User,
        ((fun y : P1.User => y.tg_id == tg)
          (if x.tg_id == tg then { x with balance := x.balance - amount } else x))
        = (x.tg_id == tg) := by
      intro x
      by_cases h : (x.tg_id == tg) = true
      · simp [h]
      · simp [h]
    have hreq : P1.apiWithdrawRequest db tg amount newId =
        ({ users := db.users.map (fun x =>
              if x.tg_id == tg then { x with balance := x.balance - amount } else x)
           ads := db.ads
           sessions := db.sessions
           daily_views := db.daily_views
           withdrawals := db.withdrawals ++ [⟨newId, tg, amount, P1.WSt.pending⟩] },
         P1.WReqRes.ok) := by
      simp only [P1.apiWithdrawRequest]
      rw [if_neg (by push_neg; exact ⟨htg, hamt⟩), if_neg (not_lt.mpr hmin), hu]
      simp only [Option.map_some', Option.getD_some]
      rw [if_neg (not_lt.mpr hbal)]
    refine ⟨by rw [hreq], ?_⟩
    rw [hreq]
    show ((db.users.map _).find? _ |>.map _).getD 0 = _
    rw [find_map_pred _ _ _ hfdeb, hu]
    simp [hueq]
  · intro db tg amount newId u hu h0 hm hcap
    simp only [V2.apiWithdrawRequest]
    rw [if_neg (not_le.mpr h0), if_neg (not_lt.mpr hm)]
    simp only [hu]
    rw [if_neg (not_lt.mpr hcap)]
    exact ⟨rfl, rfl⟩
  · intro db rid w uw hw hne hu
    have hueq : uw.tg_id = w.tg_id := by
      have h := List.find?_some hu
      simpa using h
    have hfp : ∀ x : V2.User,
        ((fun y : V2.User => y.tg_id == w.tg_id)
          (if x.tg_id == w.tg_id then { x with balance := max (x.balance - w.amount_tl) 0 }
           else x))
        = (x.tg_id == w.tg_id) := by
      intro x
      by_cases h : (x.tg_id == w.tg_id) = true
      · simp [h]
      · simp [h]
    simp only [V2.adminWithdrawPaid, hw]
    rw [if_neg (by simpa using hne)]
    simp only [V2.balanceOf2]
    show (((db.users.map _).find? _).map _).getD 0 = _
    rw [find_map_pred _ _ _ hfp, hu]
    simp [hueq]

/-- C8 witness: concrete runs of every branch of
`withdraw_hold_variants`: in part_001, user 1 (400 TL) requests 300 TL
and is debited immediately, and an approval leaves users untouched; in
the index.js variant, requesting 250 TL off a 300 TL balance leaves the
users table unchanged and marking the pending 250 TL request paid
debits `max (300 - 250) 0`. -/
theorem withdraw_hold_variants_witness :
    (P1.apiWithdrawRequest P1.dbC8a 1 300 5).2 = P1.WReqRes.ok ∧
    P1.balanceOf (P1.apiWithdrawRequest P1.dbC8a 1 300 5).1 1 = 400 - 300 ∧
    (P1.adminWithdrawalsApprove P1.dbC8a 9).users = P1.dbC8a.users ∧
    (V2.apiWithdrawRequest V2.dbC8 1 250 1).2 = V2.WReqRes2.ok ∧
    (V2.apiWithdrawRequest V2.dbC8 1 250 1).1.users = V2.dbC8.users ∧
    V2.balanceOf2 (V2.adminWithdrawPaid V2.dbC8paid 1).1 1 = max ((300 : ℚ) - 250) 0 := by
  have h := withdraw_hold_variants
  have h1 := h.1 P1.dbC8a 1 300 5 ⟨1, 400, 0, none⟩ rfl (by norm_num) (by norm_num)
    (by norm_num [P1.min_withdraw_tl]) (by norm_num)
  have h3 := h.2.2.1 V2.dbC8 1 250 1 ⟨1, 300, 0⟩ rfl (by norm_num)
    (by norm_num [V2.dbC8]) (by norm_num [V2.pendingSum, V2.dbC8])
  have h4 := h.2.2.2 V2.dbC8paid 1 ⟨1, 1, 250, V2.WSt2.pending⟩ ⟨1, 300, 0⟩ rfl
    (by decide) rfl
  exact ⟨h1.1, h1.2, h.2.1 P1.dbC8a 9, h3.1, h3.2, h4⟩

/-- C10: the index.js `/api/convert` endpoint floors the requested gem
amount to an integer before converting: an accepted request debits
exactly ⌊gems⌋ diamonds and credits `round2(⌊gems⌋ × rate)` TL, the
fractional part being ignored; a request with ⌊gems⌋ ≤ 0 is rejected as
invalid, and a request by a user holding fewer than ⌊gems⌋ diamonds is
rejected as insufficient — both rejections leave the state unchanged
(the transaction rolls back). -/
theorem convert_floor_spec (db : V2.Db) (tg : Nat) (g : ℚ) :
    (∀ u : V2.User, db.users.find? (fun x => x.tg_id == tg) = some u →
       0 < ⌊g⌋ → 0 < db.gem_rate → (⌊g⌋ : ℚ) ≤ u.diamonds →
       (V2.apiConvert db tg g).2 = V2.ConvRes.ok ⌊g⌋ (round2 ((⌊g⌋ : ℚ) * db.gem_rate)) ∧
       V2.diamondsOf2 (V2.apiConvert db tg g).1 tg = u.diamonds - (⌊g⌋ : ℚ) ∧
       V2.balanceOf2 (V2.apiConvert db tg g).1 tg
         = u.balance + round2 ((⌊g⌋ : ℚ) * db.gem_rate)) ∧
    (⌊g⌋ ≤ 0 → V2.apiConvert db tg g = (db, V2.ConvRes.gemsInvalid)) ∧
    (∀ u : V2.User, db.users.find? (fun x => x.tg_id == tg) = some u →
       0 < ⌊g⌋ → 0 < db.gem_rate → u.diamonds < (⌊g⌋ : ℚ) →
       V2.apiConvert db tg g = (db, V2.ConvRes.insufficientGems)) := by
  have hgpos : 0 < ⌊g⌋ → ¬ (g ≤ 0) := by
    intro hfl
    have h1 : (1 : ℚ) ≤ g := by
      have := Int.le_floor.mp hfl
      simpa using this
    push_neg
    linarith
  refine ⟨?_, ?_, ?_⟩
  · intro u hu hfl hrate hd
    have hueq : u.tg_id = tg := by
      have h := List.find?_some hu
      simpa using h
    have hfc : ∀ x : V2.User,
        ((fun y : V2.User => y.tg_id == tg)
          (if x.tg_id == tg then
            { x with diamonds := x.diamonds - (⌊g⌋ : ℚ),
                     balance := x.balance + round2 ((⌊g⌋ : ℚ) * db.gem_rate) }
           else x))
        = (x.tg_id == tg) := by
      intro x
      by_cases h : (x.tg_id == tg) = true
      · simp [h]
      · simp [h]
    have hmain : V2.apiConvert db tg g =
        ({ db with users := db.users.map (fun x =>
              if x.tg_id == tg then
                { x with diamonds := x.diamonds - (⌊g⌋ : ℚ),
                         balance := x.balance + round2 ((⌊g⌋ : ℚ) * db.gem_rate) }
              else x) },
         V2.ConvRes.ok ⌊g⌋ (round2 ((⌊g⌋ : ℚ) * db.gem_rate))) := by
      simp only [V2.apiConvert]
      rw [if_neg (hgpos hfl), if_neg (not_le.mpr hfl), if_neg (not_le.mpr hrate)]
      simp only [hu]
      rw [if_neg (not_lt.mpr hd)]
    refine ⟨by rw [hmain], ?_, ?_⟩
    · rw [hmain]
      show (((db.users.map _).find? _).map _).getD 0 = _
      rw [find_map_pred _ _ _ hfc, hu]
      simp [hueq]
    · rw [hmain]
      show (((db.users.map _).find? _).map _).getD 0 = _
      rw [find_map_pred _ _ _ hfc, hu]
      simp [hueq]
  · intro hfl
    by_cases hg : g ≤ 0
    · simp only [V2.apiConvert]
      rw [if_pos hg]
    · simp only [V2.apiConvert]
      rw [if_neg hg, if_pos hfl]
  · intro u hu hfl hrate hlt
    simp only [V2.apiConvert]
    rw [if_neg (hgpos hfl), if_neg (not_le.mpr hfl), if_neg (not_le.mpr hrate)]
    simp only [hu]
    rw [if_pos hlt]

/-- C10 witness: concrete runs of `convert_floor_spec` on `dbC10`
(user 1: 10 TL, 5 diamonds; rate 0.25): converting 3.5 gems debits
⌊3.5⌋ = 3 diamonds and credits round2(3 × 0.25) = 0.75 TL; 0.5 gems is
rejected as invalid; 7 gems is rejected as insufficient. -/
theorem convert_floor_spec_witness :
    (V2.apiConvert V2.dbC10 1 (7/2)).2
        = V2.ConvRes.ok ⌊(7/2 : ℚ)⌋ (round2 ((⌊(7/2 : ℚ)⌋ : ℚ) * V2.dbC10.gem_rate)) ∧
    V2.diamondsOf2 (V2.apiConvert V2.dbC10 1 (7/2)).1 1 = 5 - (⌊(7/2 : ℚ)⌋ : ℚ) ∧
    V2.balanceOf2 (V2.apiConvert V2.dbC10 1 (7/2)).1 1
        = 10 + round2 ((⌊(7/2 : ℚ)⌋ : ℚ) * V2.dbC10.gem_rate) ∧
    V2.apiConvert V2.dbC10 1 (1/2) = (V2.dbC10, V2.ConvRes.gemsInvalid) ∧
    V2.apiConvert V2.dbC10 1 7 = (V2.dbC10, V2.ConvRes.insufficientGems) := by
  have h1 := (convert_floor_spec V2.dbC10 1 (7/2)).1 ⟨1, 10, 5⟩ rfl (by norm_num)
    (by norm_num [V2.dbC10]) (by norm_num)
  have h2 := (convert_floor_spec V2.dbC10 1 (1/2)).2.1 (by norm_num)
  have h3 := (convert_floor_spec V2.dbC10 1 7).2.2 ⟨1, 10, 5⟩ rfl (by norm_num)
    (by norm_num [V2.dbC10]) (by norm_num)
  exact ⟨h1.1, h1.2.1, h1.2.2, h2, h3⟩

end RB
